import Mathlib

/-!
Verification of the token-window truncation core: `limitMessagesToTokenCount`,
`maxTokensForOpenAIModel`, `countToolsTokens`, `countMessageTokens` and
`countTokens`, shallowly embedded from the TypeScript source.

Modelling choices:
* A chat message is a role string plus an optional content string (a missing or
  null `content` field is `none`).
* The external tiktoken library is abstracted as a `Tokenizer`: a predicate
  saying which model identifiers `encoding_for_model` accepts, and the token
  count the chosen encoding assigns to a text.  `JSON.stringify` on the tool
  array is abstracted as a `stringify` parameter.
* JavaScript numbers for budgets are embedded as `Int` (the running budget is
  compared against `0` after subtraction, exactly as in the source); token
  counts are `Nat`.
* The JavaScript falsy-or (`a || b`, `x ||= y`) is embedded by `jsOrInt`,
  `jsOrNat` and `jsOrStr`: `0`, missing values and `""` are falsy.
* The two `throw` sites become an `Except` with a two-constructor error type.
-/

/-- A chat message: a role tag and an optional content payload. -/
structure Message where
  role : String
  content : Option String
deriving DecidableEq

/-- The two fail-fast error conditions of `limitMessagesToTokenCount`. -/
inductive LimitError where
  | ToolsTooLarge
  | InsufficientSystemBudget
deriving DecidableEq

/-- The external tiktoken tokenizer, abstracted: `isTiktokenModel m` says
whether `encoding_for_model m` succeeds, and `encLen e t` is the length of
encoding text `t` with the encoding of model `e`. -/
structure Tokenizer where
  isTiktokenModel : String → Bool
  encLen : String → String → Nat

/-- JavaScript `a ||= b` / `a || b` on an optional number: missing and `0` are
falsy. -/
def jsOrInt (a : Option Int) (b : Int) : Int :=
  match a with
  | some v => if v = 0 then b else v
  | none => b

/-- JavaScript `a || b` on an optional natural number: missing and `0` are
falsy. -/
def jsOrNat (a : Option Nat) (b : Nat) : Nat :=
  match a with
  | some v => if v = 0 then b else v
  | none => b

/-- JavaScript `s || d` on an optional string: missing, null and `""` are
falsy. -/
def jsOrStr (s : Option String) (d : String) : String :=
  match s with
  | some v => if v = "" then d else v
  | none => d

/-- Source constant `DEFAULT_MAX_TOKENS`. -/
def DEFAULT_MAX_TOKENS : Nat := 128000

/-- Source table `maxTokensByModel`. -/
def maxTokensByModel : List (String × Nat) :=
  [("gpt-4o", 128000),
   ("gpt-4o-2024-05-13", 128000),
   ("gpt-4-turbo", 128000),
   ("gpt-4-turbo-2024-04-09", 128000),
   ("gpt-4-0125-preview", 128000),
   ("gpt-4-turbo-preview", 128000),
   ("gpt-4-1106-preview", 128000),
   ("gpt-4-vision-preview", 128000),
   ("gpt-4-1106-vision-preview", 128000),
   ("gpt-4-32k", 32768),
   ("gpt-4-32k-0613", 32768),
   ("gpt-4-32k-0314", 32768),
   ("gpt-4", 8192),
   ("gpt-4-0613", 8192),
   ("gpt-4-0314", 8192),
   ("gpt-3.5-turbo-0125", 16385),
   ("gpt-3.5-turbo", 16385),
   ("gpt-3.5-turbo-1106", 16385),
   ("gpt-3.5-turbo-instruct", 4096),
   ("gpt-3.5-turbo-16k", 16385),
   ("gpt-3.5-turbo-0613", 4096),
   ("gpt-3.5-turbo-16k-0613", 16385),
   ("gpt-3.5-turbo-0301", 4097)]

/-- Source `maxTokensForOpenAIModel`: `maxTokensByModel[model] ||
DEFAULT_MAX_TOKENS`. -/
def maxTokensForOpenAIModel (model : String) : Nat :=
  jsOrNat (maxTokensByModel.lookup model) DEFAULT_MAX_TOKENS

/-- Source `countTokens`: try `encoding_for_model(model)`, on failure fall back
to the `"gpt-4o"` encoding, and return the encoded length. -/
def countTokens (tok : Tokenizer) (model : String) (text : String) : Nat :=
  if tok.isTiktokenModel model then tok.encLen model text
  else tok.encLen "gpt-4o" text

/-- Source `countMessageTokens`: `countTokens(model, message.content || "")`. -/
def countMessageTokens (tok : Tokenizer) (model : String) (message : Message) : Nat :=
  countTokens tok model (jsOrStr message.content "")

/-- Source `countToolsTokens`: `0` for an empty tool array, otherwise the token
count of the single `JSON.stringify` of the whole array. -/
def countToolsTokens {τ : Type} (tok : Tokenizer) (stringify : List τ → String)
    (model : String) (tools : List τ) : Nat :=
  if tools.length = 0 then 0
  else countTokens tok model (stringify tools)

/-- Source line 9, `maxTokens ||= maxTokensForOpenAIModel(model)`: the budget
actually used by `limitMessagesToTokenCount`. -/
def resolvedBudget (model : String) (maxTokens? : Option Int) : Int :=
  jsOrInt maxTokens? (maxTokensForOpenAIModel model : Nat)

/-- Source lines 18-27: scan the messages in original order; subtract each
`system` message's token count from the budget and throw as soon as the budget
goes negative. -/
def systemReserveLoop (cnt : Message → Nat) :
    List Message → Int → Except LimitError Int
  | [], maxTokens => .ok maxTokens
  | message :: rest, maxTokens =>
    if message.role = "system" then
      if maxTokens - cnt message < 0 then .error .InsufficientSystemBudget
      else systemReserveLoop cnt rest (maxTokens - cnt message)
    else systemReserveLoop cnt rest maxTokens

/-- Source lines 29-46: iterate the reversed message list with a `cutoff`
flag, `unshift`-ing every retained message onto the front of the result.
`unshift` makes the result list the kept messages in chronological order, so
each retained message is appended after the recursive call on the remaining
(older) messages. -/
def selectLoop (cnt : Message → Nat) :
    List Message → Int → Bool → List Message
  | [], _, _ => []
  | message :: rest, maxTokens, cutoff =>
    if message.role = "system" then
      selectLoop cnt rest maxTokens cutoff ++ [message]
    else if cutoff then
      selectLoop cnt rest maxTokens cutoff
    else if maxTokens < (cnt message : Int) then
      selectLoop cnt rest maxTokens true
    else
      selectLoop cnt rest (maxTokens - cnt message) cutoff ++ [message]

/-- Source lines 18-48 after the tool reservation: the system reservation scan
followed by the greedy recency selection over the reversed messages. -/
def afterToolsPhase (cnt : Message → Nat) (messages : List Message)
    (remaining : Int) : Except LimitError (List Message) :=
  match systemReserveLoop cnt messages remaining with
  | .error e => .error e
  | .ok budget => .ok (selectLoop cnt messages.reverse budget false)

/-- Source `limitMessagesToTokenCount`: resolve the budget, reserve the lump
sum for the tools (throwing `ToolsTooLarge` when it exceeds the budget),
reserve for the system messages, then greedily select from most recent to
oldest. -/
def limitMessagesToTokenCount {τ : Type} (tok : Tokenizer)
    (stringify : List τ → String) (messages : List Message) (tools : List τ)
    (model : String) (maxTokens? : Option Int) :
    Except LimitError (List Message) :=
  if (countToolsTokens tok stringify model tools : Int) >
      resolvedBudget model maxTokens? then
    .error .ToolsTooLarge
  else
    afterToolsPhase (countMessageTokens tok model) messages
      (resolvedBudget model maxTokens? -
        (countToolsTokens tok stringify model tools : Int))

/-- Role test used throughout the source (`message.role === "system"`), as a
Boolean predicate for `List.filter`. -/
def isSystem (m : Message) : Bool := decide (m.role = "system")

/-- The total token cost of a list of messages. -/
def messagesCost (cnt : Message → Nat) (l : List Message) : Nat :=
  (l.map cnt).sum

/-- The total token cost of the `system`-role messages of a list. -/
def sysCost (cnt : Message → Nat) (l : List Message) : Nat :=
  messagesCost cnt (l.filter isSystem)

/-- The total token cost of the non-`system` messages of a list. -/
def nonSysCost (cnt : Message → Nat) (l : List Message) : Nat :=
  messagesCost cnt (l.filter (fun m => !isSystem m))

/-! ### Basic cost lemmas -/

theorem messagesCost_cons (cnt : Message → Nat) (m : Message) (ms : List Message) :
    messagesCost cnt (m :: ms) = cnt m + messagesCost cnt ms := by
  simp [messagesCost]

theorem sysCost_cons_system (cnt : Message → Nat) {m : Message}
    (ms : List Message) (h : m.role = "system") :
    sysCost cnt (m :: ms) = cnt m + sysCost cnt ms := by
  simp [sysCost, messagesCost, isSystem, h]

theorem sysCost_cons_other (cnt : Message → Nat) {m : Message}
    (ms : List Message) (h : ¬m.role = "system") :
    sysCost cnt (m :: ms) = sysCost cnt ms := by
  simp [sysCost, messagesCost, isSystem, h]

theorem nonSysCost_cons_system (cnt : Message → Nat) {m : Message}
    (ms : List Message) (h : m.role = "system") :
    nonSysCost cnt (m :: ms) = nonSysCost cnt ms := by
  simp [nonSysCost, messagesCost, isSystem, h]

theorem nonSysCost_cons_other (cnt : Message → Nat) {m : Message}
    (ms : List Message) (h : ¬m.role = "system") :
    nonSysCost cnt (m :: ms) = cnt m + nonSysCost cnt ms := by
  simp [nonSysCost, messagesCost, isSystem, h]

theorem sysCost_add_nonSysCost (cnt : Message → Nat) :
    ∀ l : List Message, sysCost cnt l + nonSysCost cnt l = messagesCost cnt l := by
  intro l
  induction l with
  | nil => rfl
  | cons m ms ih =>
    by_cases hs : m.role = "system"
    · rw [sysCost_cons_system cnt ms hs, nonSysCost_cons_system cnt ms hs,
        messagesCost_cons]
      omega
    · rw [sysCost_cons_other cnt ms hs, nonSysCost_cons_other cnt ms hs,
        messagesCost_cons]
      omega

theorem nonSysCost_reverse (cnt : Message → Nat) (l : List Message) :
    nonSysCost cnt l.reverse = nonSysCost cnt l := by
  simp [nonSysCost, messagesCost, List.filter_reverse, List.map_reverse,
    List.sum_reverse]

/-! ### Lemmas about the selection loop -/

theorem selectLoop_sublist (cnt : Message → Nat) :
    ∀ (l : List Message) (b : Int) (c : Bool),
      (selectLoop cnt l b c).Sublist l.reverse := by
  intro l
  induction l with
  | nil => intro b c; simp [selectLoop]
  | cons m ms ih =>
    intro b c
    by_cases hs : m.role = "system"
    · simpa [selectLoop, hs] using (ih b c).append (List.Sublist.refl [m])
    · cases c with
      | true =>
        simpa [selectLoop, hs] using
          (ih b true).trans (List.sublist_append_left ms.reverse [m])
      | false =>
        by_cases hb : b < (cnt m : Int)
        · simpa [selectLoop, hs, hb] using
            (ih b true).trans (List.sublist_append_left ms.reverse [m])
        · simpa [selectLoop, hs, hb] using
            (ih (b - cnt m) false).append (List.Sublist.refl [m])

theorem selectLoop_filter_system (cnt : Message → Nat) :
    ∀ (l : List Message) (b : Int) (c : Bool),
      (selectLoop cnt l b c).filter isSystem = (l.filter isSystem).reverse := by
  intro l
  induction l with
  | nil => intro b c; simp [selectLoop]
  | cons m ms ih =>
    intro b c
    by_cases hs : m.role = "system"
    · simp [selectLoop, hs, List.filter_append, isSystem, ih b c]
    · cases c with
      | true => simp [selectLoop, hs, isSystem, ih b true]
      | false =>
        by_cases hb : b < (cnt m : Int)
        · simp [selectLoop, hs, hb, isSystem, ih b true]
        · simp [selectLoop, hs, hb, List.filter_append, isSystem,
            ih (b - cnt m) false]

theorem selectLoop_cutoff_no_nonSystem (cnt : Message → Nat) :
    ∀ (l : List Message) (b : Int),
      (selectLoop cnt l b true).filter (fun m => !isSystem m) = [] := by
  intro l
  induction l with
  | nil => intro b; simp [selectLoop]
  | cons m ms ih =>
    intro b
    by_cases hs : m.role = "system"
    · rw [show selectLoop cnt (m :: ms) b true = selectLoop cnt ms b true ++ [m]
          from by simp [selectLoop, hs]]
      rw [List.filter_append, ih b]
      simp [isSystem, hs]
    · rw [show selectLoop cnt (m :: ms) b true = selectLoop cnt ms b true
          from by simp [selectLoop, hs]]
      exact ih b

theorem isSuffix_append_same {α : Type} {s t : List α} (h : s.IsSuffix t)
    (u : List α) : (s ++ u).IsSuffix (t ++ u) := by
  obtain ⟨p, rfl⟩ := h
  exact ⟨p, (List.append_assoc p s u).symm⟩

theorem selectLoop_nonSystem_suffix (cnt : Message → Nat) :
    ∀ (l : List Message) (b : Int) (c : Bool),
      ((selectLoop cnt l b c).filter (fun m => !isSystem m)).IsSuffix
        (l.reverse.filter (fun m => !isSystem m)) := by
  intro l
  induction l with
  | nil => intro b c; simp [selectLoop]
  | cons m ms ih =>
    intro b c
    by_cases hs : m.role = "system"
    · simpa [selectLoop, hs, List.filter_append, isSystem] using ih b c
    · cases c with
      | true =>
        simp [selectLoop, hs, selectLoop_cutoff_no_nonSystem cnt ms b]
      | false =>
        by_cases hb : b < (cnt m : Int)
        · simp [selectLoop, hs, hb, selectLoop_cutoff_no_nonSystem cnt ms b]
        · have h1 := isSuffix_append_same (ih (b - cnt m) false) [m]
          simpa [selectLoop, hs, hb, List.filter_append, isSystem] using h1

/-! ### Lemmas about the system reservation loop -/

theorem systemReserveLoop_ne_ttl (cnt : Message → Nat) :
    ∀ (l : List Message) (b : Int),
      systemReserveLoop cnt l b ≠ .error .ToolsTooLarge := by
  intro l
  induction l with
  | nil => intro b; simp [systemReserveLoop]
  | cons m ms ih =>
    intro b
    by_cases hs : m.role = "system"
    · by_cases hb : b - (cnt m : Int) < 0
      · simp [systemReserveLoop, hs, hb]
      · simpa [systemReserveLoop, hs, hb] using ih (b - cnt m)
    · simpa [systemReserveLoop, hs] using ih b

theorem systemReserveLoop_error_iff (cnt : Message → Nat) :
    ∀ (l : List Message) (b : Int), 0 ≤ b →
      (systemReserveLoop cnt l b = .error .InsufficientSystemBudget ↔
        b < (sysCost cnt l : Int)) := by
  intro l
  induction l with
  | nil =>
    intro b hb
    simp only [systemReserveLoop, sysCost, messagesCost, List.filter_nil,
      List.map_nil, List.sum_nil, Nat.cast_zero]
    constructor
    · intro h; cases h
    · intro h; omega
  | cons m ms ih =>
    intro b hb
    by_cases hs : m.role = "system"
    · rw [sysCost_cons_system cnt ms hs]
      by_cases hneg : b - (cnt m : Int) < 0
      · simp only [systemReserveLoop, if_pos hs, if_pos hneg]
        have hup : (0 : Int) ≤ (sysCost cnt ms : Int) := Int.natCast_nonneg _
        constructor
        · intro _; push_cast; omega
        · intro _; trivial
      · rw [show systemReserveLoop cnt (m :: ms) b =
            systemReserveLoop cnt ms (b - cnt m)
            from by simp [systemReserveLoop, hs, hneg]]
        rw [ih (b - cnt m) (by omega)]
        push_cast
        omega
    · rw [sysCost_cons_other cnt ms hs]
      rw [show systemReserveLoop cnt (m :: ms) b = systemReserveLoop cnt ms b
          from by simp [systemReserveLoop, hs]]
      exact ih b hb

theorem systemReserveLoop_ok_of_le (cnt : Message → Nat) :
    ∀ (l : List Message) (b : Int), (sysCost cnt l : Int) ≤ b →
      systemReserveLoop cnt l b = .ok (b - (sysCost cnt l : Int)) := by
  intro l
  induction l with
  | nil =>
    intro b h
    simp [systemReserveLoop, sysCost, messagesCost]
  | cons m ms ih =>
    intro b h
    by_cases hs : m.role = "system"
    · rw [sysCost_cons_system cnt ms hs] at h ⊢
      have hup : (0 : Int) ≤ (sysCost cnt ms : Int) := Int.natCast_nonneg _
      push_cast at h
      have hneg : ¬ (b - (cnt m : Int) < 0) := by omega
      rw [show systemReserveLoop cnt (m :: ms) b =
          systemReserveLoop cnt ms (b - cnt m)
          from by simp [systemReserveLoop, hs, hneg]]
      rw [ih (b - cnt m) (by omega)]
      push_cast
      ring_nf
    · rw [sysCost_cons_other cnt ms hs] at h ⊢
      rw [show systemReserveLoop cnt (m :: ms) b = systemReserveLoop cnt ms b
          from by simp [systemReserveLoop, hs]]
      exact ih b h

/-! ### The selection loop keeps everything when the budget suffices -/

theorem selectLoop_keep_all (cnt : Message → Nat) :
    ∀ (l : List Message) (b : Int), (nonSysCost cnt l : Int) ≤ b →
      selectLoop cnt l b false = l.reverse := by
  intro l
  induction l with
  | nil => intro b h; simp [selectLoop]
  | cons m ms ih =>
    intro b h
    by_cases hs : m.role = "system"
    · rw [nonSysCost_cons_system cnt ms hs] at h
      rw [show selectLoop cnt (m :: ms) b false =
          selectLoop cnt ms b false ++ [m]
          from by simp [selectLoop, hs]]
      rw [ih b h, List.reverse_cons]
    · rw [nonSysCost_cons_other cnt ms hs] at h
      push_cast at h
      have hup : (0 : Int) ≤ (nonSysCost cnt ms : Int) := Int.natCast_nonneg _
      have hb : ¬ (b < (cnt m : Int)) := by omega
      rw [show selectLoop cnt (m :: ms) b false =
          selectLoop cnt ms (b - cnt m) false ++ [m]
          from by simp [selectLoop, hs, hb]]
      rw [ih (b - cnt m) (by omega), List.reverse_cons]

/-! ### Shape lemmas about the top-level function -/

theorem limit_eq_afterTools {τ : Type} (tok : Tokenizer)
    (stringify : List τ → String) (messages : List Message) (tools : List τ)
    (model : String) (mt : Option Int)
    (h : ¬ (countToolsTokens tok stringify model tools : Int) >
        resolvedBudget model mt) :
    limitMessagesToTokenCount tok stringify messages tools model mt =
      afterToolsPhase (countMessageTokens tok model) messages
        (resolvedBudget model mt -
          (countToolsTokens tok stringify model tools : Int)) := by
  simp [limitMessagesToTokenCount, h]

theorem limit_ok_shape {τ : Type} (tok : Tokenizer)
    (stringify : List τ → String) (messages : List Message) (tools : List τ)
    (model : String) (mt : Option Int) (out : List Message)
    (h : limitMessagesToTokenCount tok stringify messages tools model mt =
        .ok out) :
    ∃ b : Int,
      systemReserveLoop (countMessageTokens tok model) messages
          (resolvedBudget model mt -
            (countToolsTokens tok stringify model tools : Int)) = .ok b ∧
      out = selectLoop (countMessageTokens tok model) messages.reverse b false := by
  unfold limitMessagesToTokenCount afterToolsPhase at h
  split at h
  · exact absurd h (by simp)
  · split at h
    · exact absurd h (by simp)
    · next b heq =>
      injection h with h2
      exact ⟨b, heq, h2.symm⟩

theorem afterToolsPhase_ne_ttl (cnt : Message → Nat) (messages : List Message)
    (b : Int) : afterToolsPhase cnt messages b ≠ .error .ToolsTooLarge := by
  unfold afterToolsPhase
  split
  · next e heq =>
    intro hcontra
    injection hcontra with h2
    rw [h2] at heq
    exact systemReserveLoop_ne_ttl cnt messages b heq
  · simp

theorem afterToolsPhase_error_iff (cnt : Message → Nat)
    (messages : List Message) (b : Int) (hb : 0 ≤ b) :
    afterToolsPhase cnt messages b = .error .InsufficientSystemBudget ↔
      b < (sysCost cnt messages : Int) := by
  have hiff := systemReserveLoop_error_iff cnt messages b hb
  unfold afterToolsPhase
  split
  · next e heq =>
    cases e with
    | ToolsTooLarge => exact absurd heq (systemReserveLoop_ne_ttl cnt messages b)
    | InsufficientSystemBudget =>
      simpa using hiff.mp heq
  · next budget heq =>
    constructor
    · intro hc; cases hc
    · intro hc
      have hcontra := hiff.mpr hc
      rw [heq] at hcontra
      cases hcontra

theorem afterToolsPhase_of_reserve_ok (cnt : Message → Nat)
    (messages : List Message) (b r : Int)
    (heq : systemReserveLoop cnt messages b = .ok r) :
    afterToolsPhase cnt messages b =
      .ok (selectLoop cnt messages.reverse r false) := by
  unfold afterToolsPhase
  rw [heq]

/-! ### Concrete instances used by the witnesses

`tokEx` is a tokenizer whose every encoding counts one token per character
(so the empty text has zero tokens) and which recognizes no model identifier,
and `strEx` concatenates the serialized tools. -/

def tokEx : Tokenizer := ⟨fun _ => false, fun _ s => s.length⟩

def strEx : List String → String := fun ts => String.join ts

def exS : Message := ⟨"system", some "SSSSS"⟩

def exA : Message := ⟨"user", some "AAAAAAAAAA"⟩

def exB : Message := ⟨"assistant", some "BBBBBBBBBB"⟩

def exC : Message := ⟨"user", some "CCCCC"⟩

def exMsgs : List Message := [exS, exA, exB, exC]

def exSys6a : Message := ⟨"system", some "aaaaaa"⟩

def exSys6b : Message := ⟨"system", some "bbbbbb"⟩

def exEmptyContent : Message := ⟨"user", none⟩

/-! ### Claim theorems -/

/-- C1: for every input message sequence, tool collection, model identifier
and optional `maxTokens`, when `limitMessagesToTokenCount` returns, the
returned sequence is a sublist of the input sequence, i.e. a subsequence
preserving the input's relative order. -/
theorem C1_output_sublist_of_input {τ : Type} (tok : Tokenizer)
    (stringify : List τ → String) (messages : List Message) (tools : List τ)
    (model : String) (mt : Option Int) (out : List Message)
    (h : limitMessagesToTokenCount tok stringify messages tools model mt =
        .ok out) :
    out.Sublist messages := by
  obtain ⟨b, -, rfl⟩ :=
    limit_ok_shape tok stringify messages tools model mt out h
  simpa using
    selectLoop_sublist (countMessageTokens tok model) messages.reverse b false

/-- Witness for C1 at the spec's example input. -/
theorem C1_witness : List.Sublist [exS, exC] exMsgs :=
  C1_output_sublist_of_input tokEx strEx exMsgs ([] : List String) "m"
    (some 12) [exS, exC] (by rfl)

/-- C2: on every successful call, the `system`-role messages of the output
are exactly the `system`-role messages of the input, unchanged and in their
original relative order; moreover in the selection loop a `system` message is
retained while the remaining budget counter is passed on unchanged. -/
theorem C2_system_messages_preserved :
    (∀ (τ : Type) (tok : Tokenizer) (stringify : List τ → String)
        (messages : List Message) (tools : List τ) (model : String)
        (mt : Option Int) (out : List Message),
        limitMessagesToTokenCount tok stringify messages tools model mt =
            .ok out →
        out.filter isSystem = messages.filter isSystem) ∧
    (∀ (cnt : Message → Nat) (m : Message) (ms : List Message) (b : Int)
        (c : Bool), m.role = "system" →
        selectLoop cnt (m :: ms) b c = selectLoop cnt ms b c ++ [m]) := by
  constructor
  · intro τ tok stringify messages tools model mt out h
    obtain ⟨b, -, rfl⟩ :=
      limit_ok_shape tok stringify messages tools model mt out h
    rw [selectLoop_filter_system (countMessageTokens tok model)
      messages.reverse b false]
    rw [List.filter_reverse, List.reverse_reverse]
  · intro cnt m ms b c hs
    simp [selectLoop, hs]

/-- Witness for C2 at the spec's example input. -/
theorem C2_witness :
    List.filter isSystem [exS, exC] = List.filter isSystem exMsgs :=
  C2_system_messages_preserved.1 String tokEx strEx exMsgs ([] : List String)
    "m" (some 12) [exS, exC] (by rfl)

/-- C3: on every successful call the retained non-`system` messages form a
contiguous suffix, in chronological order, of the input's non-`system`
messages; and on the spec's concrete example (system 5 tokens, then 10, 10,
5 tokens, empty tools, budget 12) the output is exactly the system message
followed by the most recent message. -/
theorem C3_nonSystem_suffix :
    (∀ (τ : Type) (tok : Tokenizer) (stringify : List τ → String)
        (messages : List Message) (tools : List τ) (model : String)
        (mt : Option Int) (out : List Message),
        limitMessagesToTokenCount tok stringify messages tools model mt =
            .ok out →
        (out.filter (fun m => !isSystem m)).IsSuffix
          (messages.filter (fun m => !isSystem m))) ∧
    limitMessagesToTokenCount tokEx strEx exMsgs ([] : List String) "m"
        (some 12) = .ok [exS, exC] := by
  constructor
  · intro τ tok stringify messages tools model mt out h
    obtain ⟨b, -, rfl⟩ :=
      limit_ok_shape tok stringify messages tools model mt out h
    simpa using
      selectLoop_nonSystem_suffix (countMessageTokens tok model)
        messages.reverse b false
  · rfl

/-- Witness for C3: the suffix property instantiated at the spec's example. -/
theorem C3_witness :
    (List.filter (fun m => !isSystem m) [exS, exC]).IsSuffix
      (List.filter (fun m => !isSystem m) exMsgs) :=
  C3_nonSystem_suffix.1 String tokEx strEx exMsgs ([] : List String) "m"
    (some 12) [exS, exC] (by rfl)

/-- C4: `ToolsTooLarge` is thrown if and only if the token count of the
single combined serialization of the whole tool collection strictly exceeds
the resolved budget (the throw is independent of the messages); otherwise the
rest of the algorithm runs on the budget minus exactly that lump-sum cost. -/
theorem C4_tools_too_large_iff {τ : Type} (tok : Tokenizer)
    (stringify : List τ → String) (messages : List Message) (tools : List τ)
    (model : String) (mt : Option Int) :
    (limitMessagesToTokenCount tok stringify messages tools model mt =
        .error .ToolsTooLarge ↔
      resolvedBudget model mt <
        (countToolsTokens tok stringify model tools : Int)) ∧
    ((countToolsTokens tok stringify model tools : Int) ≤
        resolvedBudget model mt →
      limitMessagesToTokenCount tok stringify messages tools model mt =
        afterToolsPhase (countMessageTokens tok model) messages
          (resolvedBudget model mt -
            (countToolsTokens tok stringify model tools : Int))) := by
  by_cases h : (countToolsTokens tok stringify model tools : Int) >
      resolvedBudget model mt
  · constructor
    · constructor
      · intro _; exact h
      · intro _; simp [limitMessagesToTokenCount, h]
    · intro hle; exact absurd h (not_lt.mpr hle)
  · constructor
    · rw [limit_eq_afterTools tok stringify messages tools model mt h]
      constructor
      · intro hc
        exact absurd hc (afterToolsPhase_ne_ttl (countMessageTokens tok model)
          messages _)
      · intro hc; exact absurd hc h
    · intro _; exact limit_eq_afterTools tok stringify messages tools model mt h

/-- Witness for C4: an oversized tool collection throws, and an empty one
leaves the whole budget for the remaining phases. -/
theorem C4_witness :
    limitMessagesToTokenCount tokEx strEx exMsgs ["0123456789ABCDEF"] "m"
        (some 12) = .error .ToolsTooLarge ∧
    limitMessagesToTokenCount tokEx strEx exMsgs ([] : List String) "m"
        (some 12) =
      afterToolsPhase (countMessageTokens tokEx "m") exMsgs
        (resolvedBudget "m" (some 12) -
          (countToolsTokens tokEx strEx "m" ([] : List String) : Int)) :=
  ⟨(C4_tools_too_large_iff tokEx strEx exMsgs ["0123456789ABCDEF"] "m"
      (some 12)).1.mpr (by decide),
   (C4_tools_too_large_iff tokEx strEx exMsgs ([] : List String) "m"
      (some 12)).2 (by decide)⟩

/-- C5: once the tool reservation passes, `InsufficientSystemBudget` is
thrown if and only if the cumulative token cost of all `system`-role
messages, scanned in original order, strictly exceeds the budget remaining
after the tool reservation; in particular an exactly-equal cumulative cost
does not throw. -/
theorem C5_insufficient_system_iff {τ : Type} (tok : Tokenizer)
    (stringify : List τ → String) (messages : List Message) (tools : List τ)
    (model : String) (mt : Option Int)
    (h : (countToolsTokens tok stringify model tools : Int) ≤
        resolvedBudget model mt) :
    limitMessagesToTokenCount tok stringify messages tools model mt =
        .error .InsufficientSystemBudget ↔
      resolvedBudget model mt -
          (countToolsTokens tok stringify model tools : Int) <
        (sysCost (countMessageTokens tok model) messages : Int) := by
  rw [limit_eq_afterTools tok stringify messages tools model mt
    (not_lt.mpr h)]
  exact afterToolsPhase_error_iff (countMessageTokens tok model) messages _
    (by omega)

/-- Witness for C5: two 6-token system messages against a budget of 10 throw
`InsufficientSystemBudget` (spec scenario 4, scaled down). -/
theorem C5_witness :
    limitMessagesToTokenCount tokEx strEx [exSys6a, exSys6b]
        ([] : List String) "m" (some 10) = .error .InsufficientSystemBudget :=
  (C5_insufficient_system_iff tokEx strEx [exSys6a, exSys6b]
      ([] : List String) "m" (some 10) (by decide)).mpr (by decide)

/-- C6: whenever the lump-sum tool cost plus the total token cost of all
messages is at most the resolved budget, `limitMessagesToTokenCount` returns
the input sequence unchanged. -/
theorem C6_no_op_when_budget_suffices {τ : Type} (tok : Tokenizer)
    (stringify : List τ → String) (messages : List Message) (tools : List τ)
    (model : String) (mt : Option Int)
    (h : ((countToolsTokens tok stringify model tools : Int) +
          (messagesCost (countMessageTokens tok model) messages : Int)) ≤
        resolvedBudget model mt) :
    limitMessagesToTokenCount tok stringify messages tools model mt =
      .ok messages := by
  have hsplit := sysCost_add_nonSysCost (countMessageTokens tok model) messages
  have hm : (0 : Int) ≤
      (messagesCost (countMessageTokens tok model) messages : Int) :=
    Int.natCast_nonneg _
  have htools : (countToolsTokens tok stringify model tools : Int) ≤
      resolvedBudget model mt := by omega
  rw [limit_eq_afterTools tok stringify messages tools model mt
    (not_lt.mpr htools)]
  rw [afterToolsPhase_of_reserve_ok (countMessageTokens tok model) messages _ _
    (systemReserveLoop_ok_of_le (countMessageTokens tok model) messages _
      (by omega))]
  rw [selectLoop_keep_all (countMessageTokens tok model) messages.reverse _
    (by rw [nonSysCost_reverse]; omega)]
  rw [List.reverse_reverse]

/-- Witness for C6: the spec's ample-budget example returns the input. -/
theorem C6_witness :
    limitMessagesToTokenCount tokEx strEx exMsgs ([] : List String) "m"
        (some 100) = .ok exMsgs :=
  C6_no_op_when_budget_suffices tokEx strEx exMsgs ([] : List String) "m"
    (some 100) (by decide)

/-- C7 counterexample: the claim says the resolved budget equals the
`maxTokens` argument whenever it is provided, but providing `maxTokens = 0`
for model "gpt-4" resolves to the table limit 8192, not 0 (JavaScript `||=`
treats `0` as missing). -/
theorem C7_counterexample :
    resolvedBudget "gpt-4" (some 0) = 8192 ∧
    resolvedBudget "gpt-4" (some 0) ≠ 0 := by
  constructor
  · decide
  · decide

/-- C7 amended: the resolved budget equals the `maxTokens` argument whenever
it is provided and nonzero; when it is absent, and also when it is provided
as `0`, the budget is the model's table limit. -/
theorem C7_resolved_budget_amended (model : String) (mt : Int) :
    (mt ≠ 0 → resolvedBudget model (some mt) = mt) ∧
    resolvedBudget model (some 0) = (maxTokensForOpenAIModel model : Int) ∧
    resolvedBudget model none = (maxTokensForOpenAIModel model : Int) := by
  refine ⟨fun h => ?_, rfl, rfl⟩
  simp [resolvedBudget, jsOrInt, h]

/-- Witness for C7 (amended): a provided nonzero `maxTokens` is the budget. -/
theorem C7_witness : resolvedBudget "gpt-4" (some 7) = 7 :=
  (C7_resolved_budget_amended "gpt-4" 7).1 (by decide)

/-- C8: every model identifier outside the static limit table gets the
default ceiling 128000 (in particular "unknown-model-xyz"), and token
counting for a model the tokenizer does not recognize silently falls back to
the "gpt-4o" encoding instead of failing. -/
theorem C8_unknown_model_defaults :
    (∀ model : String, maxTokensByModel.lookup model = none →
        maxTokensForOpenAIModel model = 128000) ∧
    maxTokensForOpenAIModel "unknown-model-xyz" = 128000 ∧
    (∀ (tok : Tokenizer) (model text : String),
        tok.isTiktokenModel model = false →
        countTokens tok model text = tok.encLen "gpt-4o" text) := by
  refine ⟨fun model h => ?_, by decide, fun tok model text h => ?_⟩
  · simp [maxTokensForOpenAIModel, h, jsOrNat, DEFAULT_MAX_TOKENS]
  · simp [countTokens, h]

/-- Witness for C8 at a concrete unknown model identifier. -/
theorem C8_witness :
    maxTokensForOpenAIModel "unknown-model-xyz" = 128000 ∧
    countTokens tokEx "unknown-model-xyz" "hello" =
      tokEx.encLen "gpt-4o" "hello" :=
  ⟨C8_unknown_model_defaults.1 "unknown-model-xyz" (by decide),
   C8_unknown_model_defaults.2.2 tokEx "unknown-model-xyz" "hello" rfl⟩

/-- C9: an empty tool collection costs exactly 0 tokens (the length-zero
branch returns before any serialization), so with a non-negative resolved
budget `ToolsTooLarge` is never thrown and the messages phase runs on the
full resolved budget. -/
theorem C9_empty_tools_free {τ : Type} (tok : Tokenizer)
    (stringify : List τ → String) (messages : List Message) (model : String)
    (mt : Option Int) :
    countToolsTokens tok stringify model ([] : List τ) = 0 ∧
    (0 ≤ resolvedBudget model mt →
      limitMessagesToTokenCount tok stringify messages ([] : List τ) model
          mt ≠ .error .ToolsTooLarge ∧
      limitMessagesToTokenCount tok stringify messages ([] : List τ) model
          mt =
        afterToolsPhase (countMessageTokens tok model) messages
          (resolvedBudget model mt)) := by
  have h0 : countToolsTokens tok stringify model ([] : List τ) = 0 := rfl
  refine ⟨h0, fun hb => ?_⟩
  have hle : (countToolsTokens tok stringify model ([] : List τ) : Int) ≤
      resolvedBudget model mt := by rw [h0]; exact_mod_cast hb
  have heq := limit_eq_afterTools tok stringify messages ([] : List τ) model
    mt (not_lt.mpr hle)
  rw [h0] at heq
  simp only [Nat.cast_zero, sub_zero] at heq
  exact ⟨by rw [heq]; exact afterToolsPhase_ne_ttl _ _ _, heq⟩

/-- Witness for C9 at the spec's example input. -/
theorem C9_witness :
    countToolsTokens tokEx strEx "m" ([] : List String) = 0 ∧
    limitMessagesToTokenCount tokEx strEx exMsgs ([] : List String) "m"
        (some 12) ≠ .error .ToolsTooLarge :=
  ⟨(C9_empty_tools_free tokEx strEx exMsgs "m" (some 12)).1,
   ((C9_empty_tools_free tokEx strEx exMsgs "m" (some 12)).2 (by decide)).1⟩

/-- C10: when the encoding assigns the empty text 0 tokens (as tiktoken
does), a message whose content is absent, null or empty has a well-defined
per-message token count equal to 0; such a message leaves the system
reservation budget unchanged, and as a non-`system` message it never
triggers the cutoff and is retained whenever the cutoff is not yet set (the
running budget being non-negative, as it always is at that point). -/
theorem C10_empty_content_free (tok : Tokenizer) (model : String)
    (m : Message) (henc : ∀ e, tok.encLen e "" = 0)
    (hc : m.content = none ∨ m.content = some "") :
    countMessageTokens tok model m = 0 ∧
    (∀ (ms : List Message) (b : Int), 0 ≤ b →
      systemReserveLoop (countMessageTokens tok model) (m :: ms) b =
        systemReserveLoop (countMessageTokens tok model) ms b) ∧
    (m.role ≠ "system" →
      ∀ (ms : List Message) (b : Int), 0 ≤ b →
        selectLoop (countMessageTokens tok model) (m :: ms) b false =
          selectLoop (countMessageTokens tok model) ms b false ++ [m]) := by
  have h0 : countMessageTokens tok model m = 0 := by
    have hstr : jsOrStr m.content "" = "" := by
      rcases hc with h | h <;> simp [jsOrStr, h]
    rw [countMessageTokens, hstr, countTokens]
    split <;> exact henc _
  refine ⟨h0, fun ms b hb => ?_, fun hns ms b hb => ?_⟩
  · by_cases hs : m.role = "system"
    · have hnl : ¬ (b - ((countMessageTokens tok model m : Nat) : Int) < 0) :=
        by rw [h0]; push_cast; omega
      rw [show systemReserveLoop (countMessageTokens tok model) (m :: ms) b =
          systemReserveLoop (countMessageTokens tok model) ms
            (b - countMessageTokens tok model m)
          from by simp [systemReserveLoop, hs, hnl]]
      rw [h0]
      norm_num
    · simp [systemReserveLoop, hs]
  · have hnl : ¬ (b < ((countMessageTokens tok model m : Nat) : Int)) := by
      rw [h0]; push_cast; omega
    rw [show selectLoop (countMessageTokens tok model) (m :: ms) b false =
        selectLoop (countMessageTokens tok model) ms
          (b - countMessageTokens tok model m) false ++ [m]
        from by simp [selectLoop, hns, hnl]]
    rw [h0]
    norm_num

/-- Witness for C10: a content-less user message costs 0 tokens and is
retained by the selection loop without consuming budget. -/
theorem C10_witness :
    countMessageTokens tokEx "m" exEmptyContent = 0 ∧
    selectLoop (countMessageTokens tokEx "m") [exEmptyContent] 3 false =
      selectLoop (countMessageTokens tokEx "m") [] 3 false ++
        [exEmptyContent] :=
  ⟨(C10_empty_content_free tokEx "m" exEmptyContent (fun _ => rfl)
      (Or.inl rfl)).1,
   (C10_empty_content_free tokEx "m" exEmptyContent (fun _ => rfl)
      (Or.inl rfl)).2.2 (by decide) [] 3 (by decide)⟩
